import Mathlib

/-!
Shallow embedding of the proxy-tool core (scraper, checkers, cache) and
proofs of the specification claims about it.

Conventions used throughout:
* Python strings are Lean `String`s; scanning works on `List Char`.
* The regular expressions of `proxy_scraper.py` are embedded as explicit
  deterministic scanners.  For these particular patterns the backtracking
  search of CPython `re` is deterministic: every `\d{1,3}`/`\d{2,5}`/`[\w]+`
  piece is followed by a literal that cannot be a member of the class, so a
  greedy maximal run is forced.  `findall` semantics (try a match at every
  position, continue after the end of a match, advance one character on
  failure) are modelled with an explicit fuel argument.
* `\d` and `\w` are modelled over ASCII (`Char.isDigit`, alphanumeric or
  underscore); CPython `int` over ASCII input is modelled by `pyInt?`.
* Wall-clock instants are rationals (seconds); `round(x, 3)` display
  rounding of latencies is elided, latencies are kept exact.
* Network effects are an oracle argument: each probe of a candidate is a
  pure `Outcome` (a status/latency/headers/body quadruple, or a failure
  standing for timeout / connection refused / protocol error).
-/

namespace ProxyTool

/-- Literal match: drop `lit` from the head of the input. -/
def dropLit : List Char → List Char → Option (List Char)
  | [], cs => some cs
  | _ :: _, [] => none
  | l :: ls, c :: cs => if c = l then dropLit ls cs else none

/-- Whitespace stripped by CPython `str.strip`, ASCII subset. -/
def isSpaceChar (c : Char) : Bool :=
  c = ' ' || c = '\t' || c = '\n' || c = '\r' || c = '\x0b' || c = '\x0c'

/-- Strip leading and trailing whitespace. -/
def charsTrim (cs : List Char) : List Char :=
  ((cs.dropWhile isSpaceChar).reverse.dropWhile isSpaceChar).reverse

/-- Python `str.strip()` (and the strip done by `int(str)`). -/
def strTrim (s : String) : String := String.mk (charsTrim s.toList)

/-- Leftmost non-overlapping split on a (nonempty) separator; the fuel is
always at least the input length plus one. -/
def splitOnAuxC : Nat → List Char → List Char → List Char → List (List Char)
  | 0, _, _, acc => [acc.reverse]
  | _ + 1, _, [], acc => [acc.reverse]
  | fuel + 1, sep, c :: rest, acc =>
    match dropLit sep (c :: rest) with
    | some rest2 => acc.reverse :: splitOnAuxC fuel sep rest2 []
    | none => splitOnAuxC fuel sep rest (c :: acc)

/-- Python `s.split(sep)` for a nonempty separator. -/
def strSplitOn (s sep : String) : List String :=
  (splitOnAuxC (s.toList.length + 1) sep.toList s.toList []).map String.mk

/-- ASCII lowering, as applied by `.lower()` to the data at hand. -/
def strToLower (s : String) : String := String.mk (s.toList.map Char.toLower)

/-- `sub` occurs as a substring of `s` (Python `sub in s`); `sub` nonempty at
every use site. -/
def containsSub (s sub : String) : Bool :=
  (strSplitOn s sub).length > 1

/-- Digit string acceptable to CPython `int` after sign removal: nonempty,
begins and ends with a digit, only digits and underscores, no two adjacent
underscores. -/
def pyDigitsOk (l : List Char) : Bool :=
  match l with
  | [] => false
  | c :: _ =>
    c.isDigit && (l.getLastD 'x').isDigit &&
    l.all (fun ch => ch.isDigit || ch = '_') &&
    (l.zip l.tail).all (fun p => !(p.1 = '_' && p.2 = '_'))

/-- Numeric value of a digit-and-underscore string. -/
def digitsVal (l : List Char) : Nat :=
  (l.filter (fun c => c ≠ '_')).foldl (fun n c => n * 10 + (c.toNat - 48)) 0

/-- Model of CPython `int(str)` on ASCII input: strip whitespace, optional
sign, digits with optional single separating underscores. -/
def pyInt? (s : String) : Option Int :=
  match charsTrim s.toList with
  | '+' :: rest => if pyDigitsOk rest then some (digitsVal rest) else none
  | '-' :: rest => if pyDigitsOk rest then some (-(digitsVal rest : Int)) else none
  | l => if pyDigitsOk l then some (digitsVal l) else none

/-- `ProxyScraper._is_valid_ip`: four dot-separated parts, each an integer in
[0, 255]; any parse failure yields `False`. -/
def isValidIp (ip : String) : Bool :=
  let parts := strSplitOn ip "."
  parts.length = 4 && parts.all (fun p =>
    match pyInt? p with
    | some n => decide (0 ≤ n) && decide (n ≤ 255)
    | none => false)

/-- `ProxyScraper._is_valid_port`: an integer in [1, 65535]; any parse
failure yields `False`. -/
def isValidPort (port : String) : Bool :=
  match pyInt? port with
  | some n => decide (1 ≤ n) && decide (n ≤ 65535)
  | none => false

/-! ### The two extraction patterns

`proxy_pattern   = (?:^|\D)((?:\d{1,3}\.){3}\d{1,3}):(\d{2,5})(?:\D|$)`
`protocol_pattern = (https?|socks[45])://(?:[\w]+:[\w]+@)?((?:\d{1,3}\.){3}\d{1,3}):(\d{2,5})`
-/

/-- One `\d{1,3}` octet followed by a non-digit: the forced capture is the
maximal digit run, which must have length 1–3. -/
def octetAt (cs : List Char) : Option (List Char × List Char) :=
  let run := cs.takeWhile Char.isDigit
  if 1 ≤ run.length ∧ run.length ≤ 3 then some (run, cs.dropWhile Char.isDigit)
  else none

/-- `(?:\d{1,3}\.){3}\d{1,3}`: capture of the dotted quad and the remainder. -/
def matchIp (cs : List Char) : Option (List Char × List Char) :=
  match octetAt cs with
  | none => none
  | some (o1, r1) =>
    match r1 with
    | '.' :: r1b =>
      match octetAt r1b with
      | none => none
      | some (o2, r2) =>
        match r2 with
        | '.' :: r2b =>
          match octetAt r2b with
          | none => none
          | some (o3, r3) =>
            match r3 with
            | '.' :: r3b =>
              match octetAt r3b with
              | none => none
              | some (o4, r4) =>
                some (o1 ++ '.' :: (o2 ++ '.' :: (o3 ++ '.' :: o4)), r4)
            | _ => none
        | _ => none
    | _ => none

/-- Core of `proxy_pattern` after the `(?:^|\D)` guard: `ip : port (?:\D|$)`.
The port capture is the maximal digit run after the colon (forced, length
2–5); the trailing `\D`, when present, is consumed by the match. -/
def matchCoreBasic (cs : List Char) : Option (String × String × List Char) :=
  match matchIp cs with
  | none => none
  | some (ip, r1) =>
    match r1 with
    | ':' :: r2 =>
      let run := r2.takeWhile Char.isDigit
      let r3 := r2.dropWhile Char.isDigit
      if 2 ≤ run.length ∧ run.length ≤ 5 then
        some (String.mk ip, String.mk run, r3.tail)
      else none
    | _ => none

/-- A match attempt of `proxy_pattern` at the head of `cs`: the `^` branch is
available only at the very start of the text, otherwise `\D` consumes one
non-digit character before the core. -/
def tryBasicAt (cs : List Char) (atStart : Bool) : Option (String × String × List Char) :=
  match cs with
  | [] => none
  | c :: rest =>
    match (if atStart then matchCoreBasic (c :: rest) else none) with
    | some r => some r
    | none => if c.isDigit then none else matchCoreBasic rest

/-- `findall` scan of `proxy_pattern`: try a match at every position, resume
after a match's end, advance one character on failure.  Fuel bounds the
recursion; `text.length + 1` is always enough. -/
def scanBasic : Nat → List Char → Bool → List (String × String)
  | 0, _, _ => []
  | _ + 1, [], _ => []
  | fuel + 1, c :: rest, atStart =>
    match tryBasicAt (c :: rest) atStart with
    | some (ip, port, after) => (ip, port) :: scanBasic fuel after false
    | none => scanBasic fuel rest false

/-- `[\w]` of the credential part, over ASCII. -/
def isWordChar (c : Char) : Bool := c.isAlphanum || c = '_'

/-- `(?:[\w]+:[\w]+@)` — both runs are forced maximal and nonempty. -/
def dropUserinfo (cs : List Char) : Option (List Char) :=
  let w1 := cs.takeWhile isWordChar
  if w1.isEmpty then none
  else
    match cs.dropWhile isWordChar with
    | ':' :: r2 =>
      let w2 := r2.takeWhile isWordChar
      if w2.isEmpty then none
      else
        match r2.dropWhile isWordChar with
        | '@' :: r3 => some r3
        | _ => none
    | _ => none

/-- `ip:port` of `protocol_pattern`: no trailing context, so the greedy port
capture is the first `min 5` characters of the digit run, which must have at
least two digits. -/
def matchIpPort (cs : List Char) : Option (String × String × List Char) :=
  match matchIp cs with
  | none => none
  | some (ip, r1) =>
    match r1 with
    | ':' :: r2 =>
      let run := r2.takeWhile Char.isDigit
      if 2 ≤ run.length then
        let cap := run.take 5
        some (String.mk ip, String.mk cap, r2.drop cap.length)
      else none
    | _ => none

/-- Body after `proto://`: try the optional credential part first and fall
back to the bare `ip:port` when the rest of the match fails after it. -/
def matchProtoBody (cs : List Char) : Option (String × String × List Char) :=
  match dropUserinfo cs with
  | some r =>
    match matchIpPort r with
    | some m => some m
    | none => matchIpPort cs
  | none => matchIpPort cs

/-- Alternation order of `(https?|socks[45])`: the greedy optional `s` makes
`https` precede `http`; the socks branch is decided by the input. -/
def protoNames : List String := ["https", "http", "socks4", "socks5"]

/-- Try the protocol alternatives in order at the head of `cs`. -/
def matchProtoFrom : List String → List Char → Option (String × String × String × List Char)
  | [], _ => none
  | name :: names, cs =>
    match dropLit (name.toList ++ [':', '/', '/']) cs with
    | some body =>
      match matchProtoBody body with
      | some (ip, port, rest) => some (name, ip, port, rest)
      | none => matchProtoFrom names cs
    | none => matchProtoFrom names cs

/-- A match attempt of `protocol_pattern` at the head of `cs`. -/
def matchProtoAt (cs : List Char) : Option (String × String × String × List Char) :=
  matchProtoFrom protoNames cs

/-- `findall` scan of `protocol_pattern`. -/
def scanProto : Nat → List Char → List (String × String × String)
  | 0, _ => []
  | _ + 1, [] => []
  | fuel + 1, c :: rest =>
    match matchProtoAt (c :: rest) with
    | some (name, ip, port, after) => (name, ip, port) :: scanProto fuel after
    | none => scanProto fuel rest

/-- Python `set.add`, with the set's contents modelled as a duplicate-free
list in insertion order. -/
def setInsert (s : String) (l : List String) : List String :=
  if s ∈ l then l else l ++ [s]

/-- One protocol-pattern match contributes `proto://ip:port` when ip and port
validate, nothing otherwise. -/
def protoCandidate (m : String × String × String) : Option String :=
  if isValidIp m.2.1 && isValidPort m.2.2 then
    some (m.1 ++ "://" ++ m.2.1 ++ ":" ++ m.2.2)
  else none

/-- One basic-pattern match contributes `ip:port` when ip and port validate,
nothing otherwise. -/
def basicCandidate (m : String × String) : Option String :=
  if isValidIp m.1 && isValidPort m.2 then some (m.1 ++ ":" ++ m.2) else none

/-- Extraction body of `ProxyScraper._scrape_from_url` on fetched text: the
protocol-aware pass runs first, then the basic pass, each adding its
validated matches to the set. -/
def scrapeText (text : String) : List String :=
  let cs := text.toList
  let s1 := (scanProto (cs.length + 1) cs).foldl
    (fun a m => match protoCandidate m with
      | some s => setInsert s a
      | none => a) []
  (scanBasic (cs.length + 1) cs true).foldl
    (fun a m => match basicCandidate m with
      | some s => setInsert s a
      | none => a) s1

/-! ### `ProxyChecker._parse_proxy` -/

/-- The parse result `(url, protocol, host, port)`. -/
structure ParsedProxy where
  url : String
  protocol : String
  host : String
  port : Int
deriving DecidableEq, Repr

/-- Python `host_port.rsplit(':', 1)` guarded by `':' in host_port`: split at
the last colon when one exists. -/
def rsplitColon (hp : String) : Option (String × String) :=
  let parts := strSplitOn hp ":"
  match parts with
  | [] => none
  | [_] => none
  | _ => some (String.intercalate ":" parts.dropLast, parts.getLastD "")

/-- Protocol part of `_parse_proxy`: the lowered text before the first
`://` when one occurs, `http` otherwise. -/
def protocolOf (p : String) : String :=
  if containsSub p "://" then strToLower ((strSplitOn p "://").headD "") else "http"

/-- Host-port part of `_parse_proxy`: everything after the first `://`
(Python `split('://', 1)`), or the whole string when there is none. -/
def hostPortOf (p : String) : String :=
  if containsSub p "://" then String.intercalate "://" (strSplitOn p "://").tail else p

/-- `ProxyChecker._parse_proxy`: strip, split a leading `proto://` marker
(defaulting the protocol to `http`), split host from port at the last colon
(defaulting the port to `8080` when the segment is missing or does not parse
as an integer).  Total: every input produces a parse. -/
def parseProxy (proxy : String) : ParsedProxy :=
  let p := strTrim proxy
  let protocol := protocolOf p
  let hp :=
    match rsplitColon (hostPortOf p) with
    | some (h, ps) => (h, (pyInt? ps).getD 8080)
    | none => (hostPortOf p, (8080 : Int))
  { url := protocol ++ "://" ++ hp.1 ++ ":" ++ toString hp.2,
    protocol := protocol, host := hp.1, port := hp.2 }

/-! ### Probe outcomes

A probe either yields an HTTP response (status, latency, header values,
body) or fails — timeout, connection refused and protocol errors are all
caught by the source and collapse to the same "no contribution" path. -/

inductive Outcome where
  | ok (status : Nat) (elapsed : ℚ) (headers : List String) (body : String)
  | failed
deriving DecidableEq, Repr

/-- The result dict built by both checkers. -/
structure CheckResult where
  proxy : String
  working : Bool
  protocols : List String
  anonymity : String
  response_time : Option ℚ
deriving DecidableEq, Repr

/-- Proxy-indicating header names of `_detect_anonymity`. -/
def proxyHeaderNames : List String :=
  ["via", "x-forwarded-for", "forwarded-for", "x-forwarded",
   "client-ip", "forwarded", "proxy-connection"]

/-- `ProxyChecker._detect_anonymity`: `transparent` when the tester's real IP
occurs in the lowered body or the lowered space-joined header values;
`anonymous` when a proxy-indicating name occurs in the joined header values;
`elite` otherwise.  An empty `real_ip` is falsy and skips the IP checks. -/
def detectAnonymity (realIp : String) (headers : List String) (body : String) : String :=
  let headerStr := String.intercalate " " (headers.map strToLower)
  let responseLower := strToLower body
  if (!(realIp == "")) && containsSub responseLower (strToLower realIp) then "transparent"
  else if (!(realIp == "")) && containsSub headerStr (strToLower realIp) then "transparent"
  else if proxyHeaderNames.any (fun h => containsSub headerStr h) then "anonymous"
  else "elite"

/-! ### Thorough checker (`proxy_checker.py`) -/

/-- Protocol priority list of `_check_proxy`: the declared protocol alone for
socks4/socks5, `https` then `http` for a declared `https`, otherwise `http`
then `https`. -/
def protocolsToTest (detected : String) : List String :=
  if detected = "socks4" ∨ detected = "socks5" then [detected]
  else if detected = "https" then ["https", "http"]
  else ["http", "https"]

/-- One iteration of the protocol loop of `_check_proxy`: a 200 response
marks the result working, appends the protocol, overwrites the response
time, and classifies anonymity if still unknown; every other outcome leaves
the result unchanged. -/
def stepProtocol (oracle : String → Outcome) (realIp : String)
    (r : CheckResult) (protocol : String) : CheckResult :=
  match oracle protocol with
  | .ok status elapsed headers body =>
    if status = 200 then
      { r with working := true,
               protocols := r.protocols ++ [protocol],
               response_time := some elapsed,
               anonymity :=
                 if r.anonymity = "unknown" then detectAnonymity realIp headers body
                 else r.anonymity }
    else r
  | .failed => r

/-- The result dict of `_check_proxy` as first initialised. -/
def initCheckResult (host : String) (port : Int) : CheckResult :=
  { proxy := host ++ ":" ++ toString port, working := false, protocols := [],
    anonymity := "unknown", response_time := none }

/-- `_check_proxy` up to its final `if result['working']` filter: parse the
candidate and run the protocol loop.  The oracle gives the outcome of the
probe for each protocol name. -/
def checkProxyRecord (oracle : String → Outcome) (realIp : String)
    (proxy : String) : CheckResult :=
  let p := parseProxy proxy
  (protocolsToTest p.protocol).foldl (stepProtocol oracle realIp)
    (initCheckResult p.host p.port)

/-- `_check_proxy`: `None` when no protocol succeeded. -/
def checkProxy (oracle : String → Outcome) (realIp : String)
    (proxy : String) : Option CheckResult :=
  let r := checkProxyRecord oracle realIp proxy
  if r.working then some r else none

/-! ### Fast checker (`proxy_checker_fast.py`) -/

/-- `FastProxyChecker._quick_check_http`: the latency when the response
status is one of 200, 204, 301, 302; `None` otherwise. -/
def quickCheckHttp (o : Outcome) : Option ℚ :=
  match o with
  | .ok status elapsed _ _ =>
    if status = 200 ∨ status = 204 ∨ status = 301 ∨ status = 302 then some elapsed
    else none
  | .failed => none

/-- `FastProxyChecker._quick_check_https`, same acceptance set. -/
def quickCheckHttps (o : Outcome) : Option ℚ :=
  match o with
  | .ok status elapsed _ _ =>
    if status = 200 ∨ status = 204 ∨ status = 301 ∨ status = 302 then some elapsed
    else none
  | .failed => none

/-- `FastProxyChecker._quick_check_socks`, same acceptance set. -/
def quickCheckSocks (o : Outcome) : Option ℚ :=
  match o with
  | .ok status elapsed _ _ =>
    if status = 200 ∨ status = 204 ∨ status = 301 ∨ status = 302 then some elapsed
    else none
  | .failed => none

/-- `protocol_names` of `_parallel_check_proxy`. -/
def protocolNames : List String := ["http", "https", "socks4", "socks5"]

/-- One iteration of the result-processing loop of `_parallel_check_proxy`:
a gathered value contributes its protocol name and its latency exactly when
it is a float greater than zero. -/
def collectStep (acc : List String × List ℚ) (p : Option ℚ × String) :
    List String × List ℚ :=
  match p.1 with
  | some t => if 0 < t then (acc.1 ++ [p.2], acc.2 ++ [t]) else acc
  | none => acc

/-- The result-processing loop of `_parallel_check_proxy`, pairing each
gathered value with `protocol_names[i]`. -/
def parallelCollect (results : List (Option ℚ)) : List String × List ℚ :=
  (results.zip protocolNames).foldl collectStep ([], [])

/-- Python `min` on a list, `none` on the empty list. -/
def listMin : List ℚ → Option ℚ
  | [] => none
  | t :: ts => some (ts.foldl min t)

/-- `_parallel_check_proxy` up to its final `if times` filter: gather the two
(or, outside fast mode, four) quick checks and process the outcomes.  The
oracle gives the outcome of the probe for each protocol name. -/
def parallelCheckRecord (oracle : String → Outcome) (fastMode : Bool)
    (proxy : String) : CheckResult :=
  let tasks :=
    if fastMode then [quickCheckHttp (oracle "http"), quickCheckHttps (oracle "https")]
    else [quickCheckHttp (oracle "http"), quickCheckHttps (oracle "https"),
          quickCheckSocks (oracle "socks4"), quickCheckSocks (oracle "socks5")]
  let c := parallelCollect tasks
  if c.2.isEmpty then
    { proxy := proxy, working := false, protocols := c.1,
      anonymity := "anonymous", response_time := none }
  else
    { proxy := proxy, working := true, protocols := c.1,
      anonymity := "anonymous", response_time := listMin c.2 }

/-- `_parallel_check_proxy`: `None` when no probe contributed. -/
def parallelCheckProxy (oracle : String → Outcome) (fastMode : Bool)
    (proxy : String) : Option CheckResult :=
  let r := parallelCheckRecord oracle fastMode proxy
  if r.working then some r else none

/-! ### Categorisation and `check_all` of both checkers.

The results dictionary is an association list from category name to bucket;
the thorough checker starts from a dict holding all eight categories, the
fast checker from an empty `defaultdict(list)`. -/

def categories : List String :=
  ["http", "https", "socks4", "socks5", "elite", "anonymous", "transparent", "all_working"]

/-- The eight empty buckets of `ProxyChecker.__init__`. -/
def initResults : List (String × List CheckResult) :=
  categories.map (fun k => (k, []))

def hasKey (k : String) (m : List (String × List CheckResult)) : Bool :=
  m.any (fun p => p.1 = k)

/-- Append to an existing bucket. -/
def appendAt (k : String) (v : CheckResult)
    (m : List (String × List CheckResult)) : List (String × List CheckResult) :=
  m.map (fun p => if p.1 = k then (p.1, p.2 ++ [v]) else p)

/-- `defaultdict(list)` access followed by append: creates the bucket when
absent. -/
def dAppend (k : String) (v : CheckResult)
    (m : List (String × List CheckResult)) : List (String × List CheckResult) :=
  if hasKey k m then appendAt k v m else m ++ [(k, [v])]

/-- `ProxyChecker._categorize_result`: append to `all_working`, to every
bucket named by a confirmed protocol, and to the anonymity bucket when one
of that name exists. -/
def categorizeResult (r : CheckResult)
    (m : List (String × List CheckResult)) : List (String × List CheckResult) :=
  let m1 := appendAt "all_working" r m
  let m2 := r.protocols.foldl (fun acc p => if hasKey p acc then appendAt p r acc else acc) m1
  if hasKey r.anonymity m2 then appendAt r.anonymity r m2 else m2

/-- `FastProxyChecker._categorize_result`: identical, except that the
`all_working` access is a defaultdict access, so protocol and anonymity
membership tests run against whatever keys exist so far. -/
def categorizeFast (r : CheckResult)
    (m : List (String × List CheckResult)) : List (String × List CheckResult) :=
  let m1 := dAppend "all_working" r m
  let m2 := r.protocols.foldl (fun acc p => if hasKey p acc then appendAt p r acc else acc) m1
  if hasKey r.anonymity m2 then appendAt r.anonymity r m2 else m2

/-- `ProxyChecker.check_all` on a fresh checker: an empty candidate set
returns the (still empty) results dict unchanged; otherwise each candidate
is checked and every working result categorised.  Batching, pauses and
progress callbacks do not affect the returned mapping. -/
def checkAllThorough (oracle : String → String → Outcome) (realIp : String)
    (proxies : List String) : List (String × List CheckResult) :=
  if proxies.isEmpty then initResults
  else
    proxies.foldl (fun acc pr =>
      match checkProxy (oracle pr) realIp pr with
      | some r => categorizeResult r acc
      | none => acc) initResults

/-- `FastProxyChecker.check_all`: results are rebuilt from an empty
`defaultdict(list)` and returned as a plain dict. -/
def checkAllFast (oracle : String → String → Outcome) (fastMode : Bool)
    (proxies : List String) : List (String × List CheckResult) :=
  proxies.foldl (fun acc pr =>
    match parallelCheckProxy (oracle pr) fastMode pr with
    | some r => categorizeFast r acc
    | none => acc) []

/-! ### Freshness cache (`database.py`)

The `proxy_cache` table is modelled as a list of rows (the `UNIQUE(proxy)`
constraint makes at most one row match any update).  `last_checked` is the
timestamp TEXT actually stored in the column: the `TIMESTAMP` type name has
NUMERIC affinity in SQLite, a `CURRENT_TIMESTAMP` value is the non-numeric
text `YYYY-MM-DD HH:MM:SS` (UTC), so the value stays TEXT and every
comparison against it is a byte-wise (BINARY collation) text comparison —
for the ASCII texts at hand, lexicographic comparison of the characters.
The writes store the `CURRENT_TIMESTAMP` text of their moment, threaded in
as the `now` argument.  Counters are integers, as in SQLite. -/

/-- Byte-wise (BINARY collation) order on the ASCII timestamp texts: for
ASCII, the UTF-8 memcmp order is lexicographic order on the code points. -/
def charsLt : List Char → List Char → Bool
  | [], [] => false
  | [], _ :: _ => true
  | _ :: _, [] => false
  | a :: as, b :: bs =>
    if a.toNat < b.toNat then true
    else if b.toNat < a.toNat then false
    else charsLt as bs

/-- SQLite TEXT `<` under BINARY collation, on ASCII strings. -/
def strLtB (a b : String) : Bool := charsLt a.toList b.toList

structure CacheEntry where
  proxy : String
  protocols : String
  anonymity : String
  response_time : ℚ
  last_checked : String
  check_count : Int
  success_count : Int
  is_working : Bool
deriving DecidableEq, Repr

/-- `Database.cache_working_proxy`: `INSERT` with column defaults
`check_count = 1`, `success_count = 1`, `is_working = 1`, upgraded on
conflict to an update that overwrites the payload fields, advances
`last_checked`, increments both counters and forces `is_working = 1`.
The protocol list is stored comma-joined. -/
def cacheWorkingProxy (now : String) (proxy : String) (protocols : List String)
    (anonymity : String) (rt : ℚ) (db : List CacheEntry) : List CacheEntry :=
  let protocolsStr := String.intercalate "," protocols
  if db.any (fun e => e.proxy = proxy) then
    db.map (fun e =>
      if e.proxy = proxy then
        { e with protocols := protocolsStr, anonymity := anonymity,
                 response_time := rt, last_checked := now,
                 check_count := e.check_count + 1,
                 success_count := e.success_count + 1,
                 is_working := true }
      else e)
  else
    db ++ [{ proxy := proxy, protocols := protocolsStr, anonymity := anonymity,
             response_time := rt, last_checked := now,
             check_count := 1, success_count := 1, is_working := true }]

/-- `Database.mark_proxy_dead`: `UPDATE` of the matching row — clears
`is_working`, advances `last_checked`, increments `check_count` only.  A
proxy not in the table is a no-op. -/
def markProxyDead (now : String) (proxy : String) (db : List CacheEntry) : List CacheEntry :=
  db.map (fun e =>
    if e.proxy = proxy then
      { e with is_working := false, last_checked := now,
               check_count := e.check_count + 1 }
    else e)

/-- A cache mutation: the two write paths of the proxy cache. -/
inductive CacheOp where
  | upsert (proxy : String) (protocols : List String) (anonymity : String) (rt : ℚ)
  | markDead (proxy : String)
deriving Repr

def applyOp (db : List CacheEntry) : String × CacheOp → List CacheEntry
  | (now, .upsert proxy protocols anonymity rt) =>
    cacheWorkingProxy now proxy protocols anonymity rt db
  | (now, .markDead proxy) => markProxyDead now proxy db

/-- A sequence of timestamped cache mutations applied to a cache state. -/
def runOps (ops : List (String × CacheOp)) (db : List CacheEntry) : List CacheEntry :=
  ops.foldl applyOp db

/-- Sort key of the query: ascending response time. -/
def rtLE (a b : CacheEntry) : Prop := a.response_time ≤ b.response_time

instance : DecidableRel rtLE := fun a b =>
  inferInstanceAs (Decidable (a.response_time ≤ b.response_time))

instance : IsTotal CacheEntry rtLE := ⟨fun a b => le_total a.response_time b.response_time⟩

instance : IsTrans CacheEntry rtLE := ⟨fun _ _ _ h h2 => le_trans h h2⟩

/-- The row filter of `get_cached_proxies`: `is_working = 1` and
`last_checked > ?`, where the bound parameter is
`(datetime.now() - timedelta(hours=max_age_hours)).isoformat()` — the
LOCAL-time text `YYYY-MM-DDTHH:MM:SS[.ffffff]`, taken here as the
`cutoffIso` argument (the datetime subtraction happens in the datetime
library, outside the query).  The comparison against the stored
`YYYY-MM-DD HH:MM:SS` UTC text is SQLite's byte-wise TEXT comparison.
Then the optional `LIKE '%protocol%'` substring filter and the optional
exact anonymity filter; a `none` filter models the falsy (absent or empty)
Python argument. -/
def cacheRowPred (cutoffIso : String) (protocol anonymity : Option String)
    (e : CacheEntry) : Bool :=
  e.is_working && strLtB cutoffIso e.last_checked &&
  (match protocol with
   | some p => containsSub e.protocols p
   | none => true) &&
  (match anonymity with
   | some a => e.anonymity = a
   | none => true)

/-- `Database.get_cached_proxies`: select the rows passing the filter,
ordered by ascending response time. -/
def getCachedProxies (cutoffIso : String) (protocol anonymity : Option String)
    (db : List CacheEntry) : List CacheEntry :=
  (db.filter (cacheRowPred cutoffIso protocol anonymity)).insertionSort rtLE

/-- Modelled from the spec: lexicographic comparison of the
`[year, month, day, hour, minute, second]` fields read off a timestamp
text of either format (`YYYY-MM-DD HH:MM:SS` or
`YYYY-MM-DDTHH:MM:SS[.ffffff]`) — for well-formed stamps this is exactly
chronological order, the reading under which the spec's "`last_checked`
within `max_age` of now" compares timestamps. -/
def tsFields (s : String) : Option (List Nat) :=
  let cs := s.toList
  let num := fun (l : List Char) =>
    if (!l.isEmpty) && l.all Char.isDigit then some (digitsVal l) else none
  match num (cs.take 4), num ((cs.drop 5).take 2), num ((cs.drop 8).take 2),
        num ((cs.drop 11).take 2), num ((cs.drop 14).take 2), num ((cs.drop 17).take 2) with
  | some y, some mo, some d, some h, some mi, some se => some [y, mo, d, h, mi, se]
  | _, _, _, _, _, _ => none

/-- Lexicographic order on equal-length numeric field lists. -/
def natsLt : List Nat → List Nat → Bool
  | [], [] => false
  | [], _ :: _ => true
  | _ :: _, [] => false
  | a :: as, b :: bs =>
    if a < b then true else if b < a then false else natsLt as bs

/-- `a` is chronologically strictly after `b` (spec reading of freshness). -/
def tsAfter (a b : String) : Bool :=
  match tsFields a, tsFields b with
  | some fa, some fb => natsLt fb fa
  | _, _ => false

/-- Protocol membership as the specification words it: the protocol is one
of the comma-separated entries of the stored protocol list.  Stated for
comparison with the `LIKE`-based filter the code runs. -/
def protocolListMember (p s : String) : Bool :=
  (strSplitOn s ",").contains p

/-! ## Supporting lemmas -/

/-- The probe for protocol `p` succeeds in the thorough checker: the test
request answered with status 200. -/
def probeSuccess (oracle : String → Outcome) (p : String) : Bool :=
  match oracle p with
  | .ok s _ _ _ => s = 200
  | .failed => false

/-- Latency of the last successful probe of the list, with a default. -/
def lastSuccessTime (oracle : String → Outcome) (l : List String)
    (dflt : Option ℚ) : Option ℚ :=
  l.foldl (fun acc p =>
    match oracle p with
    | .ok s t _ _ => if s = 200 then some t else acc
    | .failed => acc) dflt

lemma foldl_stepProtocol_spec (oracle : String → Outcome) (realIp : String) :
    ∀ (l : List String) (r : CheckResult),
      ((l.foldl (stepProtocol oracle realIp) r).protocols
          = r.protocols ++ l.filter (probeSuccess oracle))
      ∧ ((l.foldl (stepProtocol oracle realIp) r).response_time
          = lastSuccessTime oracle l r.response_time)
      ∧ ((l.foldl (stepProtocol oracle realIp) r).working
          = (r.working || l.any (probeSuccess oracle)))
      ∧ ((l.foldl (stepProtocol oracle realIp) r).proxy = r.proxy) := by
  intro l
  induction l with
  | nil => intro r; simp [lastSuccessTime]
  | cons p ps ih =>
    intro r
    simp only [List.foldl_cons]
    rcases ho : oracle p with ⟨s, t, hd, b⟩ | _
    · by_cases hs : s = 200
      · have hred : stepProtocol oracle realIp r p =
            { r with working := true, protocols := r.protocols ++ [p],
                     response_time := some t,
                     anonymity := if r.anonymity = "unknown"
                       then detectAnonymity realIp hd b else r.anonymity } := by
          simp [stepProtocol, ho, hs]
        rw [hred]
        obtain ⟨h1, h2, h3, h4⟩ := ih
          { r with working := true, protocols := r.protocols ++ [p],
                   response_time := some t,
                   anonymity := if r.anonymity = "unknown"
                     then detectAnonymity realIp hd b else r.anonymity }
        refine ⟨?_, ?_, ?_, ?_⟩
        · rw [h1]; simp [probeSuccess, ho, hs]
        · rw [h2]; simp [lastSuccessTime, ho, hs]
        · rw [h3]; simp [probeSuccess, ho, hs]
        · rw [h4]
      · have hred : stepProtocol oracle realIp r p = r := by
          simp [stepProtocol, ho, hs]
        rw [hred]
        obtain ⟨h1, h2, h3, h4⟩ := ih r
        refine ⟨?_, ?_, ?_, ?_⟩
        · rw [h1]; simp [probeSuccess, ho, hs]
        · rw [h2]; simp [lastSuccessTime, ho, hs]
        · rw [h3]; simp [probeSuccess, ho, hs]
        · rw [h4]
    · have hred : stepProtocol oracle realIp r p = r := by
        simp [stepProtocol, ho]
      rw [hred]
      obtain ⟨h1, h2, h3, h4⟩ := ih r
      refine ⟨?_, ?_, ?_, ?_⟩
      · rw [h1]; simp [probeSuccess, ho]
      · rw [h2]; simp [lastSuccessTime, ho]
      · rw [h3]; simp [probeSuccess, ho]
      · rw [h4]

lemma collect_lengths :
    ∀ (l : List (Option ℚ × String)) (a : List String) (b : List ℚ),
      a.length = b.length →
      ((l.foldl collectStep (a, b)).1.length = (l.foldl collectStep (a, b)).2.length) := by
  intro l
  induction l with
  | nil => intro a b h; simpa using h
  | cons x xs ih =>
    intro a b h
    simp only [List.foldl_cons]
    rcases hx : x.1 with _ | t
    · have : collectStep (a, b) x = (a, b) := by simp [collectStep, hx]
      rw [this]; exact ih a b h
    · by_cases ht : 0 < t
      · have : collectStep (a, b) x = (a ++ [x.2], b ++ [t]) := by
          simp [collectStep, hx, ht]
        rw [this]
        exact ih _ _ (by simp [h])
      · have : collectStep (a, b) x = (a, b) := by simp [collectStep, hx, ht]
        rw [this]; exact ih a b h

lemma parallelCollect_nil_iff (results : List (Option ℚ)) :
    (parallelCollect results).1 = [] ↔ (parallelCollect results).2 = [] := by
  have h := collect_lengths (results.zip protocolNames) [] [] rfl
  unfold parallelCollect
  constructor
  · intro h1
    have := h.symm.trans (congrArg List.length h1)
    simpa [List.length_eq_zero] using this
  · intro h2
    have := h.trans (congrArg List.length h2)
    simpa [List.length_eq_zero] using this

/-! ## Claim theorems -/

/-- C1: for every result record built by the thorough checker's
`_check_proxy` and by the fast checker's `_parallel_check_proxy`, the
`working` field is true exactly when the `protocols` list is nonempty. -/
theorem c1_working_iff_protocols_nonempty :
    ∀ (oracle : String → Outcome) (realIp proxy : String)
      (oracleF : String → Outcome) (fastMode : Bool) (proxyF : String),
      ((checkProxyRecord oracle realIp proxy).working = true ↔
        (checkProxyRecord oracle realIp proxy).protocols ≠ []) ∧
      ((parallelCheckRecord oracleF fastMode proxyF).working = true ↔
        (parallelCheckRecord oracleF fastMode proxyF).protocols ≠ []) := by
  intro oracle realIp proxy oracleF fastMode proxyF
  constructor
  · unfold checkProxyRecord
    obtain ⟨h1, _, h3, _⟩ := foldl_stepProtocol_spec oracle realIp
      (protocolsToTest (parseProxy proxy).protocol)
      (initCheckResult (parseProxy proxy).host (parseProxy proxy).port)
    rw [h1, h3]
    simp [initCheckResult, List.any_eq_true, List.filter_eq_nil_iff,
      List.eq_nil_iff_forall_not_mem]
  · simp only [parallelCheckRecord]
    set tasks := (if fastMode then
        [quickCheckHttp (oracleF "http"), quickCheckHttps (oracleF "https")]
      else [quickCheckHttp (oracleF "http"), quickCheckHttps (oracleF "https"),
            quickCheckSocks (oracleF "socks4"), quickCheckSocks (oracleF "socks5")])
    have hiff := parallelCollect_nil_iff tasks
    by_cases h : (parallelCollect tasks).2.isEmpty = true
    · rw [if_pos h]
      simp only [List.isEmpty_iff] at h
      simp [hiff.mpr h]
    · rw [if_neg h]
      simp only [List.isEmpty_iff] at h
      simpa using fun hc => h (hiff.mp hc)


/-- An oracle under which both `http` and `https` probes answer 200, with
latencies 1 and 2. -/
def oracleBoth : String → Outcome := fun p =>
  if p = "http" then .ok 200 1 [] ""
  else if p = "https" then .ok 200 2 [] ""
  else .failed

/-- C7 counterexample: the protocol loop of `_check_proxy` has no `break`,
so for a candidate whose `http` and `https` probes both succeed the thorough
checker records two protocols, not at most one, and `response_time` is the
second (last) success's latency, not the first's. -/
theorem c7_counterexample :
    (checkProxyRecord oracleBoth "" "1.2.3.4:8080").protocols = ["http", "https"] ∧
    (checkProxyRecord oracleBoth "" "1.2.3.4:8080").protocols.length = 2 ∧
    (checkProxyRecord oracleBoth "" "1.2.3.4:8080").response_time = some 2 := by
  refine ⟨by decide, by decide, by decide⟩

/-- C7 amended: in thorough mode the protocols are probed sequentially in
the priority order (declared protocol alone if socks4/socks5, `https` then
`http` for a declared https, otherwise `http` then `https`), with no early
stop: every protocol of the list whose probe answers 200 is appended to
`protocols`, and `response_time` is the latency of the last such success. -/
theorem c7_amended :
    ∀ (oracle : String → Outcome) (realIp proxy : String),
      ((checkProxyRecord oracle realIp proxy).protocols
        = (protocolsToTest (parseProxy proxy).protocol).filter (probeSuccess oracle)) ∧
      ((checkProxyRecord oracle realIp proxy).response_time
        = lastSuccessTime oracle (protocolsToTest (parseProxy proxy).protocol) none) ∧
      protocolsToTest "socks4" = ["socks4"] ∧
      protocolsToTest "socks5" = ["socks5"] ∧
      protocolsToTest "https" = ["https", "http"] ∧
      protocolsToTest "http" = ["http", "https"] := by
  intro oracle realIp proxy
  obtain ⟨h1, h2, _, _⟩ := foldl_stepProtocol_spec oracle realIp
    (protocolsToTest (parseProxy proxy).protocol)
    (initCheckResult (parseProxy proxy).host (parseProxy proxy).port)
  exact ⟨by simpa [initCheckResult] using h1, by simpa [initCheckResult] using h2,
    rfl, rfl, rfl, rfl⟩

/-- An oracle under which every probe answers 204. -/
def oracle204 : String → Outcome := fun _ => .ok 204 1 [] ""

/-- C3 counterexample: a probe answering HTTP 204 succeeds in the fast
checker but contributes nothing in the thorough checker, whose `_check_proxy`
accepts only status 200 — so the claimed acceptance set
{200, 204, 301, 302} does not hold for both checkers. -/
theorem c3_counterexample :
    quickCheckHttp (.ok 204 1 [] "") = some 1 ∧
    (checkProxyRecord oracle204 "" "1.2.3.4:8080").protocols = [] ∧
    (checkProxyRecord oracle204 "" "1.2.3.4:8080").working = false ∧
    checkProxy oracle204 "" "1.2.3.4:8080" = none := by
  refine ⟨by decide, by decide, by decide, by decide⟩

/-- C3 amended: a fast-checker probe succeeds exactly when the response
status is one of 200, 204, 301, 302 (all three quick checks share the set;
a failure outcome contributes nothing), while a thorough-checker probe
contributes its protocol exactly when the response status is 200; in both
checkers every non-success outcome leaves the result unchanged and raises
nothing. -/
theorem c3_amended :
    (∀ (s : Nat) (t : ℚ) (hd : List String) (b : String),
      (quickCheckHttp (.ok s t hd b) = some t ↔ (s = 200 ∨ s = 204 ∨ s = 301 ∨ s = 302)) ∧
      quickCheckHttps (.ok s t hd b) = quickCheckHttp (.ok s t hd b) ∧
      quickCheckSocks (.ok s t hd b) = quickCheckHttp (.ok s t hd b)) ∧
    quickCheckHttp .failed = none ∧
    (∀ (oracle : String → Outcome) (realIp : String) (r : CheckResult) (p : String),
      (stepProtocol oracle realIp r p = r ↔ ¬ ∃ t hd b, oracle p = .ok 200 t hd b)) ∧
    (∀ (oracle : String → Outcome) (realIp : String) (r : CheckResult) (p : String)
      (t : ℚ) (hd : List String) (b : String),
      oracle p = .ok 200 t hd b →
        (stepProtocol oracle realIp r p).protocols = r.protocols ++ [p] ∧
        (stepProtocol oracle realIp r p).working = true ∧
        (stepProtocol oracle realIp r p).response_time = some t) := by
  refine ⟨?_, rfl, ?_, ?_⟩
  · intro s t hd b
    refine ⟨?_, rfl, rfl⟩
    unfold quickCheckHttp
    by_cases hs : s = 200 ∨ s = 204 ∨ s = 301 ∨ s = 302
    · simp [hs]
    · simp [hs]
  · intro oracle realIp r p
    constructor
    · rintro heq ⟨t, hd, b, ho⟩
      have hpr : (stepProtocol oracle realIp r p).protocols = r.protocols ++ [p] := by
        simp [stepProtocol, ho]
      rw [heq] at hpr
      exact absurd (congrArg List.length hpr) (by simp)
    · intro hno
      rcases ho : oracle p with ⟨s, t, hd, b⟩ | _
      · have hs : ¬ s = 200 := fun h => hno ⟨t, hd, b, by rw [ho, h]⟩
        simp [stepProtocol, ho, hs]
      · simp [stepProtocol, ho]
  · intro oracle realIp r p t hd b ho
    exact ⟨by simp [stepProtocol, ho], by simp [stepProtocol, ho], by simp [stepProtocol, ho]⟩

/-- C3 amended, witnessed at status 204 for the fast side and a concrete
200 success for the thorough side. -/
theorem c3_amended_witness :
    quickCheckHttp (.ok 204 1 [] "") = some 1 ∧
    (stepProtocol (fun _ => .ok 200 3 [] "") ""
      (initCheckResult "1.2.3.4" 8080) "http").protocols = ["http"] := by
  constructor
  · exact (c3_amended.1 204 1 [] "").1.mpr (by decide)
  · have h := c3_amended.2.2.2 (fun _ => .ok 200 3 [] "") ""
      (initCheckResult "1.2.3.4" 8080) "http" 3 [] "" rfl
    simpa [initCheckResult] using h.1

/-- C9: `_parse_proxy` is total with defaults — no `://` marker means
protocol `http`, a missing or unparsable port segment means port 8080, and
the identity recorded by the thorough checker is always `host:port` of the
parse. -/
theorem c9_parse_defaults :
    ∀ (s : String) (oracle : String → Outcome) (realIp : String),
      (containsSub (strTrim s) "://" = false → (parseProxy s).protocol = "http") ∧
      (∀ h ps, rsplitColon (hostPortOf (strTrim s)) = some (h, ps) →
        pyInt? ps = none → (parseProxy s).port = 8080) ∧
      (rsplitColon (hostPortOf (strTrim s)) = none → (parseProxy s).port = 8080) ∧
      (checkProxyRecord oracle realIp s).proxy
        = (parseProxy s).host ++ ":" ++ toString (parseProxy s).port := by
  intro s oracle realIp
  refine ⟨?_, ?_, ?_, ?_⟩
  · intro hns
    unfold parseProxy
    cases hr : rsplitColon (hostPortOf (strTrim s)) with
    | none => simp [hr, protocolOf, hns]
    | some pr => simp [hr, protocolOf, hns]
  · intro h ps hr hpi
    unfold parseProxy
    simp [hr, hpi]
  · intro hr
    unfold parseProxy
    simp [hr]
  · obtain ⟨_, _, _, h4⟩ := foldl_stepProtocol_spec oracle realIp
      (protocolsToTest (parseProxy s).protocol)
      (initCheckResult (parseProxy s).host (parseProxy s).port)
    simp only [checkProxyRecord]
    rw [h4]
    rfl

/-- C9 witnessed on `1.2.3.4:abc`: no protocol marker and an unparsable
port segment. -/
theorem c9_parse_defaults_witness :
    (parseProxy "1.2.3.4:abc").protocol = "http" ∧
    (parseProxy "1.2.3.4:abc").port = 8080 := by
  have h := c9_parse_defaults "1.2.3.4:abc" (fun _ => Outcome.failed) ""
  exact ⟨h.1 (by decide), h.2.1 "1.2.3.4" "abc" (by decide) (by decide)⟩

lemma applyOp_preserves (now : String) (o : CacheOp) (db : List CacheEntry)
    (h : ∀ e ∈ db, 0 ≤ e.success_count ∧ e.success_count ≤ e.check_count) :
    ∀ e ∈ applyOp db (now, o), 0 ≤ e.success_count ∧ e.success_count ≤ e.check_count := by
  intro e he
  rcases o with ⟨proxy, protocols, anonymity, rt⟩ | proxy
  · simp only [applyOp, cacheWorkingProxy] at he
    by_cases hex : db.any (fun x => x.proxy = proxy)
    · rw [if_pos hex] at he
      rcases List.mem_map.mp he with ⟨e0, he0, rfl⟩
      obtain ⟨hs0, hc0⟩ := h e0 he0
      by_cases hp : e0.proxy = proxy
      · constructor <;> simp [hp] <;> omega
      · simpa [hp] using ⟨hs0, hc0⟩
    · rw [if_neg hex] at he
      rcases List.mem_append.mp he with hold | hnew
      · exact h e hold
      · simp only [List.mem_singleton] at hnew
        subst hnew
        constructor <;> simp
  · simp only [applyOp, markProxyDead] at he
    rcases List.mem_map.mp he with ⟨e0, he0, rfl⟩
    obtain ⟨hs0, hc0⟩ := h e0 he0
    by_cases hp : e0.proxy = proxy
    · constructor <;> simp [hp] <;> omega
    · simpa [hp] using ⟨hs0, hc0⟩

lemma runOps_inv :
    ∀ (ops : List (String × CacheOp)) (db : List CacheEntry),
      (∀ e ∈ db, 0 ≤ e.success_count ∧ e.success_count ≤ e.check_count) →
      ∀ e ∈ runOps ops db, 0 ≤ e.success_count ∧ e.success_count ≤ e.check_count := by
  intro ops
  induction ops with
  | nil => intro db h e he; exact h e he
  | cons op ops ih =>
    intro db h e he
    simp only [runOps, List.foldl_cons] at he
    exact ih (applyOp db op) (applyOp_preserves op.1 op.2 db h) e he

/-- C4: starting from the empty cache, any sequence of
`cache_working_proxy` upserts and `mark_proxy_dead` updates leaves every
entry with `check_count >= success_count >= 0` — creation sets both
counters to 1, an upsert hit increments both, and `mark_proxy_dead`
increments `check_count` only. -/
theorem c4_cache_counters :
    ∀ (ops : List (String × CacheOp)) (e : CacheEntry),
      e ∈ runOps ops [] →
        0 ≤ e.success_count ∧ e.success_count ≤ e.check_count :=
  fun ops e he => runOps_inv ops [] (by simp) e he

/-- The operation sequence of the C4 witness: create, kill, revive one
entry. -/
def opsW : List (String × CacheOp) :=
  [("2026-10-11 06:00:00", .upsert "1.2.3.4:8080" ["http"] "elite" 1),
   ("2026-10-11 07:00:00", .markDead "1.2.3.4:8080"),
   ("2026-10-11 08:00:00", .upsert "1.2.3.4:8080" ["http", "https"] "anonymous" 2)]

/-- The entry reached by the C4 witness sequence. -/
def entW : CacheEntry :=
  { proxy := "1.2.3.4:8080", protocols := "http,https", anonymity := "anonymous",
    response_time := 2, last_checked := "2026-10-11 08:00:00", check_count := 3,
    success_count := 2, is_working := true }

/-- C4 witnessed on a concrete create / mark-dead / re-upsert sequence. -/
theorem c4_cache_counters_witness :
    entW ∈ runOps opsW [] ∧
    (0 ≤ entW.success_count ∧ entW.success_count ≤ entW.check_count) :=
  ⟨by decide, c4_cache_counters opsW entW (by decide)⟩

/-- A working cache row whose protocol list is exactly `https`, stamped
with a `CURRENT_TIMESTAMP`-format UTC text. -/
def entHttpsOnly : CacheEntry :=
  { proxy := "9.9.9.9:80", protocols := "https", anonymity := "anonymous",
    response_time := 1, last_checked := "2026-10-11 08:00:00", check_count := 1,
    success_count := 1, is_working := true }

/-- A working cache row stamped late on 2026-10-11 (UTC). -/
def entFresh : CacheEntry :=
  { proxy := "8.8.8.8:80", protocols := "http", anonymity := "elite",
    response_time := 2, last_checked := "2026-10-11 23:59:59", check_count := 1,
    success_count := 1, is_working := true }

/-- An isoformat cutoff one day before `entHttpsOnly`'s stamp. -/
def cutoffIsoEarlier : String := "2026-10-10T08:00:00.000000"

/-- An isoformat cutoff on the same calendar date as, but 18 hours before,
`entFresh`'s stamp. -/
def cutoffIsoSameDate : String := "2026-10-11T06:00:59.000000"

/-- C5 counterexample, refuting the claim on two points.  (a) The protocol
filter is SQL `LIKE '%protocol%'` — substring containment in the
comma-joined protocol list, not membership: querying for `http` returns a
row whose protocol list is only `https`.  (b) The freshness test is a
byte-wise TEXT comparison of the stored UTC `YYYY-MM-DD HH:MM:SS` stamp
against the local-time isoformat cutoff, whose 11th byte is `T` where the
stamp has a space: `entFresh` is chronologically 18 hours after the cutoff
(well inside the 24-hour window, on the spec's chronological reading
`tsAfter`), yet the query returns nothing — the result is not "exactly the
entries within 24 hours".  The final byte fact shows the reverse failure
mode: a cutoff text of one calendar date compares below every stamp of the
next date, so with UTC stamps against a local-time cutoff (e.g. UTC-11,
local now 2026-10-12 23:59) the row stamped 2026-10-12 00:00:00 UTC — then
almost 35 hours old — is returned, so an entry older than 24 hours can be
returned. -/
theorem c5_counterexample :
    (getCachedProxies cutoffIsoEarlier (some "http") none [entHttpsOnly]
        = [entHttpsOnly] ∧
      protocolListMember "http" entHttpsOnly.protocols = false) ∧
    (tsAfter entFresh.last_checked cutoffIsoSameDate = true ∧
      getCachedProxies cutoffIsoSameDate none none [entFresh] = []) ∧
    strLtB "2026-10-11T23:59:00.000000" "2026-10-12 00:00:00" = true := by
  refine ⟨⟨by decide, by decide⟩, ⟨by decide, by decide⟩, by decide⟩

lemma charsLt_append (p x y : List Char) : charsLt (p ++ x) (p ++ y) = charsLt x y := by
  induction p with
  | nil => rfl
  | cons c cs ih => simp [charsLt, ih]

/-- C5 amended: the query returns exactly the `is_working` rows whose
stored timestamp text byte-compares above the bound local-time isoformat
cutoff string, filtered by `LIKE`-substring containment of the protocol
name in the comma-joined protocol list (not list membership) and by exact
anonymity match, ordered by ascending response time.  Because the stored
format has a space where the cutoff has `T`, this byte order is not the
24-hour window: every row stamped on the cutoff's calendar date is excluded
however fresh (last conjunct), and — the cutoff being local time against
UTC stamps — a row of the following date can be returned although older
than 24 hours. -/
theorem c5_amended :
    ∀ (cutoffIso : String) (protocol anonymity : Option String)
      (db : List CacheEntry),
      (getCachedProxies cutoffIso protocol anonymity db).Perm
        (db.filter (cacheRowPred cutoffIso protocol anonymity)) ∧
      List.Sorted rtLE (getCachedProxies cutoffIso protocol anonymity db) ∧
      (∀ e ∈ getCachedProxies cutoffIso protocol anonymity db,
        e ∈ db ∧ e.is_working = true ∧ strLtB cutoffIso e.last_checked = true ∧
        (∀ p, protocol = some p → containsSub e.protocols p = true) ∧
        (∀ a, anonymity = some a → e.anonymity = a)) ∧
      (∀ date tl cu : String,
        strLtB (date ++ "T" ++ cu) (date ++ " " ++ tl) = false) := by
  intro cutoffIso protocol anonymity db
  have hperm : (getCachedProxies cutoffIso protocol anonymity db).Perm
      (db.filter (cacheRowPred cutoffIso protocol anonymity)) :=
    (db.filter (cacheRowPred cutoffIso protocol anonymity)).perm_insertionSort rtLE
  refine ⟨hperm, List.sorted_insertionSort rtLE _, ?_, ?_⟩
  · intro e he
    have hef : e ∈ db.filter (cacheRowPred cutoffIso protocol anonymity) :=
      hperm.mem_iff.mp he
    obtain ⟨hed, hpred⟩ := List.mem_filter.mp hef
    have hp := hpred
    unfold cacheRowPred at hp
    simp only [Bool.and_eq_true, decide_eq_true_eq] at hp
    obtain ⟨⟨⟨hw, hfresh⟩, hproto⟩, hanon⟩ := hp
    refine ⟨hed, hw, hfresh, ?_, ?_⟩
    · intro p hpq
      rw [hpq] at hproto
      exact hproto
    · intro a haq
      rw [haq] at hanon
      simpa using hanon
  · intro date tl cu
    have hred : strLtB (date ++ "T" ++ cu) (date ++ " " ++ tl)
        = charsLt (date.toList ++ ('T' :: cu.toList))
            (date.toList ++ (' ' :: tl.toList)) := by
      simp [strLtB, String.toList, String.data_append]
    rw [hred, charsLt_append]
    show (if 'T'.toNat < ' '.toNat then true
      else if ' '.toNat < 'T'.toNat then false
      else charsLt cu.toList tl.toList) = false
    rw [if_neg (by decide), if_pos (by decide)]

/-- C5 amended, witnessed on a one-row cache with both filters set and a
cutoff of the previous calendar date. -/
theorem c5_amended_witness :
    entHttpsOnly ∈
      getCachedProxies cutoffIsoEarlier (some "https") (some "anonymous") [entHttpsOnly] ∧
    (entHttpsOnly ∈ [entHttpsOnly] ∧ entHttpsOnly.is_working = true ∧
      strLtB cutoffIsoEarlier entHttpsOnly.last_checked = true ∧
      (∀ p, (some "https" : Option String) = some p →
        containsSub entHttpsOnly.protocols p = true) ∧
      (∀ a, (some "anonymous" : Option String) = some a → entHttpsOnly.anonymity = a)) :=
  ⟨by decide,
   (c5_amended cutoffIsoEarlier (some "https") (some "anonymous") [entHttpsOnly]).2.2.1
     entHttpsOnly (by decide)⟩

/-- An oracle under which every probe fails. -/
def oracleDead : String → String → Outcome := fun _ _ => .failed

/-- C6 counterexample: the fast checker's `check_all` rebuilds its results
as an empty `defaultdict(list)` and, over an empty candidate set, returns
`dict()` of it — an empty mapping with no category buckets at all, so the
`http` bucket (and every other) is absent rather than present-and-empty. -/
theorem c6_counterexample :
    checkAllFast oracleDead true [] = [] ∧
    (checkAllFast oracleDead true []).lookup "http" = none := by
  refine ⟨rfl, rfl⟩

/-- C6 amended: validating an empty candidate set is not an error in either
checker; the thorough checker returns its results dict with all eight
category buckets present and empty, while the fast checker returns an empty
mapping containing no buckets. -/
theorem c6_amended :
    ∀ (oracle oracleF : String → String → Outcome) (realIp : String) (fastMode : Bool),
      checkAllThorough oracle realIp [] = initResults ∧
      (∀ k, k ∈ categories → (checkAllThorough oracle realIp []).lookup k = some []) ∧
      checkAllFast oracleF fastMode [] = [] := by
  intro oracle oracleF realIp fastMode
  refine ⟨rfl, ?_, rfl⟩
  intro k hk
  fin_cases hk <;> rfl

/-- C6 amended, witnessed at the `http` bucket. -/
theorem c6_amended_witness :
    (checkAllThorough oracleDead "" []).lookup "http" = some [] :=
  (c6_amended oracleDead oracleDead "" true).2.1 "http" (by decide)

/-- Scenario A source text of the specification. -/
def scenarioA : String :=
  "proxy list: 1.2.3.4:8080 http://5.6.7.8:3128 bad:port 999.1.1.1:80"

/-- C2 counterexample: the two passes deduplicate only by exact candidate
string, so the bare-pattern pass adds `5.6.7.8:3128` alongside
`http://5.6.7.8:3128` and extraction yields three candidates, not two. -/
theorem c2_counterexample :
    "5.6.7.8:3128" ∈ scrapeText scenarioA ∧
    (scrapeText scenarioA).length = 3 := by
  refine ⟨by decide, by decide⟩

/-- C2 amended: extraction on the scenario-A text yields exactly the
three-element candidate set {http://5.6.7.8:3128, 1.2.3.4:8080,
5.6.7.8:3128} (in insertion order of the model): a bare match for an
address already captured with a protocol hint does create a second, distinct
candidate, while the malformed IP `999.1.1.1` and the malformed port token
`port` are both rejected. -/
theorem c2_amended :
    scrapeText scenarioA
      = ["http://5.6.7.8:3128", "1.2.3.4:8080", "5.6.7.8:3128"] ∧
    isValidIp "999.1.1.1" = false ∧ isValidPort "port" = false := by
  refine ⟨by decide, by decide, by decide⟩

lemma mem_candFold {α : Type} (f : α → Option String) :
    ∀ (l : List α) (acc : List String) (s : String),
      s ∈ l.foldl (fun a m =>
        match f m with
        | some str => setInsert str a
        | none => a) acc →
      s ∈ acc ∨ ∃ m ∈ l, f m = some s := by
  intro l
  induction l with
  | nil => intro acc s h; exact Or.inl h
  | cons x xs ih =>
    intro acc s h
    simp only [List.foldl_cons] at h
    rcases ih _ s h with hacc | ⟨m, hm, hf⟩
    · cases hfx : f x with
      | some str =>
        rw [hfx] at hacc
        simp only [setInsert] at hacc
        by_cases hmem : str ∈ acc
        · rw [if_pos hmem] at hacc
          exact Or.inl hacc
        · rw [if_neg hmem] at hacc
          rcases List.mem_append.mp hacc with h1 | h2
          · exact Or.inl h1
          · simp only [List.mem_singleton] at h2
            subst h2
            exact Or.inr ⟨x, List.mem_cons_self x xs, hfx⟩
      | none =>
        rw [hfx] at hacc
        simp only [] at hacc
        exact Or.inl hacc
    · exact Or.inr ⟨m, List.mem_cons_of_mem x hm, hf⟩

lemma matchCoreBasic_port (cs : List Char) (ip port : String) (rest : List Char)
    (h : matchCoreBasic cs = some (ip, port, rest)) :
    2 ≤ port.length ∧ port.length ≤ 5 ∧ port.toList.all Char.isDigit = true := by
  unfold matchCoreBasic at h
  split at h
  · exact absurd h (by simp)
  · split at h
    · dsimp only at h
      split at h
      next hcond =>
        obtain ⟨rfl, rfl, rfl⟩ : String.mk _ = ip ∧ String.mk _ = port ∧ _ = rest := by
          injection h with h2
          injection h2 with ha hb
          injection hb with hb1 hb2
          exact ⟨ha, hb1, hb2⟩
        refine ⟨hcond.1, hcond.2, ?_⟩
        exact List.all_eq_true.mpr (fun c hc => List.mem_takeWhile_imp hc)
      next => exact absurd h (by simp)
    · exact absurd h (by simp)

lemma tryBasicAt_port (cs : List Char) (atStart : Bool) (ip port : String)
    (rest : List Char) (h : tryBasicAt cs atStart = some (ip, port, rest)) :
    2 ≤ port.length ∧ port.length ≤ 5 ∧ port.toList.all Char.isDigit = true := by
  unfold tryBasicAt at h
  split at h
  · exact absurd h (by simp)
  · rename_i c rest0
    split at h
    · rename_i r heq
      split at heq
      · rw [h] at heq
        exact matchCoreBasic_port _ _ _ _ heq
      · exact absurd heq (by simp)
    · split at h
      · exact absurd h (by simp)
      · exact matchCoreBasic_port _ _ _ _ h

lemma scanBasic_port :
    ∀ (fuel : Nat) (cs : List Char) (atStart : Bool) (m : String × String),
      m ∈ scanBasic fuel cs atStart →
      2 ≤ m.2.length ∧ m.2.length ≤ 5 ∧ m.2.toList.all Char.isDigit = true := by
  intro fuel
  induction fuel with
  | zero => intro cs atStart m h; simp [scanBasic] at h
  | succ n ih =>
    intro cs atStart m h
    cases cs with
    | nil => simp [scanBasic] at h
    | cons c rest =>
      rw [scanBasic] at h
      cases ht : tryBasicAt (c :: rest) atStart with
      | some r =>
        rw [ht] at h
        obtain ⟨ip, port, after⟩ := r
        rcases List.mem_cons.mp h with rfl | hm
        · exact tryBasicAt_port _ _ _ _ _ ht
        · exact ih _ _ _ hm
      | none =>
        rw [ht] at h
        exact ih _ _ _ h

lemma matchIpPort_port (cs : List Char) (ip port : String) (rest : List Char)
    (h : matchIpPort cs = some (ip, port, rest)) :
    2 ≤ port.length ∧ port.length ≤ 5 ∧ port.toList.all Char.isDigit = true := by
  unfold matchIpPort at h
  split at h
  · exact absurd h (by simp)
  · split at h
    · dsimp only at h
      split at h
      next hcond =>
        obtain ⟨rfl, rfl, rfl⟩ : String.mk _ = ip ∧ String.mk _ = port ∧ _ = rest := by
          injection h with h2
          injection h2 with ha hb
          injection hb with hb1 hb2
          exact ⟨ha, hb1, hb2⟩
        refine ⟨?_, ?_, ?_⟩
        · show 2 ≤ (List.take 5 _).length
          rw [List.length_take]
          omega
        · show (List.take 5 _).length ≤ 5
          rw [List.length_take]
          omega
        · exact List.all_eq_true.mpr
            (fun ch hch => List.mem_takeWhile_imp (List.take_subset 5 _ hch))
      next => exact absurd h (by simp)
    · exact absurd h (by simp)

lemma matchProtoBody_port (cs : List Char) (ip port : String) (rest : List Char)
    (h : matchProtoBody cs = some (ip, port, rest)) :
    2 ≤ port.length ∧ port.length ≤ 5 ∧ port.toList.all Char.isDigit = true := by
  unfold matchProtoBody at h
  cases hdu : dropUserinfo cs with
  | some r =>
    rw [hdu] at h
    simp only [] at h
    cases hmr : matchIpPort r with
    | some m =>
      rw [hmr] at h
      simp only [] at h
      injection h with h2
      subst h2
      exact matchIpPort_port _ _ _ _ hmr
    | none =>
      rw [hmr] at h
      simp only [] at h
      exact matchIpPort_port _ _ _ _ h
  | none =>
    rw [hdu] at h
    simp only [] at h
    exact matchIpPort_port _ _ _ _ h

lemma matchProtoFrom_port :
    ∀ (names : List String) (cs : List Char) (name ip port : String)
      (rest : List Char),
      matchProtoFrom names cs = some (name, ip, port, rest) →
      2 ≤ port.length ∧ port.length ≤ 5 ∧ port.toList.all Char.isDigit = true := by
  intro names
  induction names with
  | nil => intro cs name ip port rest h; simp [matchProtoFrom] at h
  | cons n ns ih =>
    intro cs name ip port rest h
    rw [matchProtoFrom] at h
    split at h
    · split at h
      · rename_i body hbody ipx portx restx hm
        obtain ⟨rfl, rfl, rfl, rfl⟩ :
            n = name ∧ ipx = ip ∧ portx = port ∧ restx = rest := by
          injection h with h2
          injection h2 with ha hb
          injection hb with hb1 hb2
          injection hb2 with hc1 hc2
          exact ⟨ha, hb1, hc1, hc2⟩
        exact matchProtoBody_port _ _ _ _ hm
      · exact ih _ _ _ _ _ h
    · exact ih _ _ _ _ _ h

lemma scanProto_port :
    ∀ (fuel : Nat) (cs : List Char) (m : String × String × String),
      m ∈ scanProto fuel cs →
      2 ≤ m.2.2.length ∧ m.2.2.length ≤ 5 ∧ m.2.2.toList.all Char.isDigit = true := by
  intro fuel
  induction fuel with
  | zero => intro cs m h; simp [scanProto] at h
  | succ n ih =>
    intro cs m h
    cases cs with
    | nil => simp [scanProto] at h
    | cons c rest =>
      rw [scanProto] at h
      cases ht : matchProtoAt (c :: rest) with
      | some r =>
        rw [ht] at h
        obtain ⟨name, ip, port, after⟩ := r
        rcases List.mem_cons.mp h with rfl | hm
        · exact matchProtoFrom_port _ _ _ _ _ _ ht
        · exact ih _ _ hm
      | none =>
        rw [ht] at h
        exact ih _ _ h

/-- C8: every candidate in the extraction output is either `ip:port` or
`proto://ip:port` for an ip and port that pass `_is_valid_ip` and
`_is_valid_port`; matches failing validation contribute nothing. -/
theorem c8_output_validated :
    ∀ (text s : String), s ∈ scrapeText text →
      ∃ ip port, isValidIp ip = true ∧ isValidPort port = true ∧
        (s = ip ++ ":" ++ port ∨ ∃ proto, s = proto ++ "://" ++ ip ++ ":" ++ port) := by
  intro text s hs
  unfold scrapeText at hs
  rcases mem_candFold basicCandidate _ _ _ hs with h1 | ⟨m, _, hf⟩
  · rcases mem_candFold protoCandidate _ _ _ h1 with h2 | ⟨m, _, hf⟩
    · simp at h2
    · unfold protoCandidate at hf
      split at hf
      next hval =>
        injection hf with hf2
        obtain ⟨hip, hport⟩ : isValidIp m.2.1 = true ∧ isValidPort m.2.2 = true := by
          simpa using hval
        exact ⟨m.2.1, m.2.2, hip, hport, Or.inr ⟨m.1, hf2.symm⟩⟩
      next => exact absurd hf (by simp)
  · unfold basicCandidate at hf
    split at hf
    next hval =>
      injection hf with hf2
      obtain ⟨hip, hport⟩ : isValidIp m.1 = true ∧ isValidPort m.2 = true := by
        simpa using hval
      exact ⟨m.1, m.2, hip, hport, Or.inl hf2.symm⟩
    next => exact absurd hf (by simp)

/-- C8 witnessed on a one-candidate text. -/
theorem c8_output_validated_witness :
    "1.2.3.4:8080" ∈ scrapeText "1.2.3.4:8080" ∧
    ∃ ip port, isValidIp ip = true ∧ isValidPort port = true ∧
      ("1.2.3.4:8080" = ip ++ ":" ++ port ∨
        ∃ proto, "1.2.3.4:8080" = proto ++ "://" ++ ip ++ ":" ++ port) :=
  ⟨by decide, c8_output_validated "1.2.3.4:8080" "1.2.3.4:8080" (by decide)⟩

/-- C10 counterexample: the two-digit token `07` passes the 2–5 digit
pattern requirement and the port validator, so extraction on `1.2.3.4:07`
emits a candidate whose port has the numeric value 7 — a port in [1, 9]
does appear in the output, via a leading zero. -/
theorem c10_counterexample :
    "1.2.3.4:07" ∈ scrapeText "1.2.3.4:07" ∧
    pyInt? "07" = some 7 ∧ isValidPort "07" = true := by
  refine ⟨by decide, by decide, by decide⟩

/-- C10 amended: both extraction patterns require the port token to have
between 2 and 5 digits, so no candidate whose port is written with a single
digit ever appears in the output — but a port whose numeric value is in
[1, 9] can still appear, written with a leading zero. -/
theorem c10_port_token_digits :
    ∀ (text s : String), s ∈ scrapeText text →
      ∃ ip port, 2 ≤ port.length ∧ port.length ≤ 5 ∧
        port.toList.all Char.isDigit = true ∧
        (s = ip ++ ":" ++ port ∨ ∃ proto, s = proto ++ "://" ++ ip ++ ":" ++ port) := by
  intro text s hs
  unfold scrapeText at hs
  rcases mem_candFold basicCandidate _ _ _ hs with h1 | ⟨m, hm, hf⟩
  · rcases mem_candFold protoCandidate _ _ _ h1 with h2 | ⟨m, hm, hf⟩
    · simp at h2
    · obtain ⟨hlen1, hlen2, hdig⟩ := scanProto_port _ _ _ hm
      unfold protoCandidate at hf
      split at hf
      next =>
        injection hf with hf2
        exact ⟨m.2.1, m.2.2, hlen1, hlen2, hdig, Or.inr ⟨m.1, hf2.symm⟩⟩
      next => exact absurd hf (by simp)
  · obtain ⟨hlen1, hlen2, hdig⟩ := scanBasic_port _ _ _ _ hm
    unfold basicCandidate at hf
    split at hf
    next =>
      injection hf with hf2
      exact ⟨m.1, m.2, hlen1, hlen2, hdig, Or.inl hf2.symm⟩
    next => exact absurd hf (by simp)

/-- C10 amended, witnessed on a one-candidate text with a four-digit port. -/
theorem c10_port_token_digits_witness :
    "1.2.3.4:8080" ∈ scrapeText "x 1.2.3.4:8080" ∧
    ∃ ip port, 2 ≤ port.length ∧ port.length ≤ 5 ∧
      port.toList.all Char.isDigit = true ∧
      ("1.2.3.4:8080" = ip ++ ":" ++ port ∨
        ∃ proto, "1.2.3.4:8080" = proto ++ "://" ++ ip ++ ":" ++ port) :=
  ⟨by decide, c10_port_token_digits "x 1.2.3.4:8080" "1.2.3.4:8080" (by decide)⟩

end ProxyTool
